import Mathlib

/-!
Verification development for the siriusxm2usb track pipeline
(src/siriusxm2usb.py).  The Python source is shallowly embedded:
JSON values become the inductive type Json, Python exceptions that the
source can raise and catch become Except results, and the external
collaborators (json.loads, the filesystem, the HTTP fetch, the
ytmusicapi search) become explicit function parameters (oracles), so
every definition is executable.
-/

/-- Python exceptions relevant to the embedded code paths. -/
inductive PyErr where
  | typeError
  | valueError
deriving DecidableEq, Repr

/-- Parsed JSON values (the shapes json.loads can produce).  Numeric
values are modelled as integers; no claim depends on float behaviour.
Object fields are kept in insertion order, as Python dicts do; keys are
unique after json.loads, and lookups take the first occurrence. -/
inductive Json where
  | null
  | bool (b : Bool)
  | num (n : Int)
  | str (s : String)
  | arr (xs : List Json)
  | obj (fields : List (String × Json))

/-- Python dict lookup d.get(key) / d[key] on an object's field list. -/
def jsonGet : List (String × Json) → String → Option Json
  | [], _ => none
  | (k, v) :: rest, key => if k = key then some v else jsonGet rest key

/-- Python truthiness of a JSON value (bool(x)). -/
def pyTruthy : Json → Bool
  | Json.null => false
  | Json.bool b => b
  | Json.num n => n != 0
  | Json.str s => s != ""
  | Json.arr xs => !xs.isEmpty
  | Json.obj fs => !fs.isEmpty

/-- Decimal digits of a natural number, most significant first
(the digits of Python str(n) for n : Nat). -/
def natDigits (n : Nat) : List Char :=
  if h : n < 10 then [Char.ofNat (48 + n)]
  else natDigits (n / 10) ++ [Char.ofNat (48 + n % 10)]
termination_by n
decreasing_by
  exact Nat.div_lt_self (by omega) (by omega)

/-- Python str(n) for a natural number. -/
def natRepr (n : Nat) : String := String.mk (natDigits n)

/-- Python str(n) for an integer. -/
def intRepr : Int → String
  | Int.ofNat m => natRepr m
  | Int.negSucc m => "-" ++ natRepr (m + 1)

mutual
/-- Python repr(x) of a JSON value (strings gain quotes). -/
def pyRepr (j : Json) : String :=
  match j with
  | Json.null => "None"
  | Json.bool true => "True"
  | Json.bool false => "False"
  | Json.num n => intRepr n
  | Json.str s => "\x27" ++ s ++ "\x27"
  | Json.arr xs => "[" ++ pyReprList xs ++ "]"
  | Json.obj fs => "\x7b" ++ pyReprFields fs ++ "\x7d"

/-- Comma-separated reprs of the elements of a Python list. -/
def pyReprList (xs : List Json) : String :=
  match xs with
  | [] => ""
  | [x] => pyRepr x
  | x :: y :: rest => pyRepr x ++ ", " ++ pyReprList (y :: rest)

/-- Comma-separated key: value reprs of the entries of a Python dict. -/
def pyReprFields (fs : List (String × Json)) : String :=
  match fs with
  | [] => ""
  | [(k, v)] => "\x27" ++ k ++ "\x27: " ++ pyRepr v
  | (k, v) :: e :: rest =>
      "\x27" ++ k ++ "\x27: " ++ pyRepr v ++ ", " ++ pyReprFields (e :: rest)
end

/-- Python str(x) of a JSON value, as used by f-string interpolation:
identical to repr(x) except on strings, which convert to themselves. -/
def pyStr (j : Json) : String :=
  match j with
  | Json.str s => s
  | j => pyRepr j

/-- Python sep.join(l) on a list of actual strings. -/
def joinSep (sep : String) : List String → String
  | [] => ""
  | [s] => s
  | s :: t :: rest => s ++ sep ++ joinSep sep (t :: rest)

/-- Checks that every element of the list is a Python str, returning the
underlying strings; any other element makes str.join raise TypeError. -/
def allStrs : List Json → Option (List String)
  | [] => some []
  | Json.str s :: rest => (allStrs rest).map (fun l => s :: l)
  | _ :: _ => none

/-- Python sep.join(items) on a list of arbitrary values: raises
TypeError when some item is not a str. -/
def pyJoin (sep : String) (items : List Json) : Except PyErr String :=
  match allStrs items with
  | some ss => Except.ok (joinSep sep ss)
  | none => Except.error PyErr.typeError

/-- The per-entry artist filter and map from extract_tracks
(src/siriusxm2usb.py line 168): a bare string is kept as itself (even
when empty); a dict is kept when its "name" value is truthy, and maps
to that value; everything else is dropped. -/
def extractArtistName : Json → Option Json
  | Json.str s => some (Json.str s)
  | Json.obj fs =>
      match jsonGet fs "name" with
      | some v => if pyTruthy v then some v else none
      | none => none
  | _ => none

/-- The body of the per-track loop of extract_tracks (lines 164-173):
appends at most one "artist - title" record to the accumulator, or
raises TypeError when ", ".join meets a non-string artist name. -/
def processTrack (track : Json) (acc : List String) : Except PyErr (List String) :=
  match track with
  | Json.obj fs =>
      if (jsonGet fs "artists").isSome && (jsonGet fs "title").isSome then
        match jsonGet fs "artists" with
        | some (Json.arr artists) =>
            let artistNames := artists.filterMap extractArtistName
            if artistNames.isEmpty then Except.ok acc
            else
              match pyJoin ", " artistNames with
              | Except.error e => Except.error e
              | Except.ok artistString =>
                  match jsonGet fs "title" with
                  | some title =>
                      if pyTruthy title then
                        Except.ok (acc ++ [artistString ++ " - " ++ pyStr title])
                      else Except.ok acc
                  | none => Except.ok acc
        | _ => Except.ok acc
      else Except.ok acc
  | _ => Except.ok acc

/-- The for-loop over tracks_to_process in extract_tracks. -/
def processTracks : List Json → List String → Except PyErr (List String)
  | [], acc => Except.ok acc
  | t :: ts, acc =>
      match processTrack t acc with
      | Except.error e => Except.error e
      | Except.ok acc1 => processTracks ts acc1

/-- tracks_to_process for a dict (lines 158-162): a dict-valued "track"
key gives a one-element list; otherwise a list-valued "tracks" key is
used as-is; otherwise no candidates. -/
def tracksOf (fs : List (String × Json)) : List Json :=
  match jsonGet fs "track" with
  | some (Json.obj t) => [Json.obj t]
  | _ =>
      match jsonGet fs "tracks" with
      | some (Json.arr ts) => ts
      | _ => []

mutual
/-- extract_tracks (lines 155-181): processes the dict's track
candidates, then recurses into every dict value / list element.  The
accumulator threads the closed-over track_records list; an error is a
TypeError propagating out of ", ".join. -/
def extract_tracks (data : Json) (acc : List String) : Except PyErr (List String) :=
  match data with
  | Json.obj fs =>
      match processTracks (tracksOf fs) acc with
      | Except.error e => Except.error e
      | Except.ok acc1 => extractValues fs acc1
  | Json.arr xs => extractItems xs acc
  | _ => Except.ok acc

/-- Recursion of extract_tracks into the values of a dict, in field
order. -/
def extractValues (fs : List (String × Json)) (acc : List String) :
    Except PyErr (List String) :=
  match fs with
  | [] => Except.ok acc
  | (_, v) :: rest =>
      match extract_tracks v acc with
      | Except.error e => Except.error e
      | Except.ok acc1 => extractValues rest acc1

/-- Recursion of extract_tracks into the elements of a list, in order. -/
def extractItems (xs : List Json) (acc : List String) :
    Except PyErr (List String) :=
  match xs with
  | [] => Except.ok acc
  | x :: rest =>
      match extract_tracks x acc with
      | Except.error e => Except.error e
      | Except.ok acc1 => extractItems rest acc1
end

/-- Running extract_tracks on a parsed value under the try/except of
process_track_records: a TypeError yields the empty list. -/
def runExtract (j : Json) : List String :=
  match extract_tracks j [] with
  | Except.ok recs => recs
  | Except.error _ => []

/-- The input to process_track_records: raw text (to be json.loads-ed)
or an already-parsed value. -/
inductive PyInput where
  | text (s : String)
  | val (j : Json)

/-- process_track_records (lines 141-196).  The external json.loads is
the oracle parameter loads; none models a JSONDecodeError, which the
function catches, returning []. -/
def process_track_records (loads : String → Option Json) : PyInput → List String
  | PyInput.text s =>
      match loads s with
      | some j => runExtract j
      | none => []
  | PyInput.val j => runExtract j

/-- process_track_records_from_file (lines 198-215).  The filepath
argument may be None (Python's None, from a failed getChannelJson):
open(None) then raises TypeError, which is NOT in the caught tuple
(FileNotFoundError, json.JSONDecodeError, OSError) and so escapes.
readFile is the open+json.load oracle: outer none is an OSError /
missing file, inner none is a json.JSONDecodeError; both are caught
and yield []. -/
def process_track_records_from_file (readFile : String → Option (Option Json)) :
    Option String → Except PyErr (List String)
  | none => Except.error PyErr.typeError
  | some p =>
      match readFile p with
      | none => Except.ok []
      | some none => Except.ok []
      | some (some j) => Except.ok (runExtract j)

/-- The Python-level match test of the selection loop of
find_song_on_youtube (line 236): the item is a dict whose "category"
equals "Songs" and whose "videoId" is present and not None. -/
def resultMatches : Json → Bool
  | Json.obj fs =>
      (match jsonGet fs "category" with
       | some (Json.str c) => c == "Songs"
       | _ => false)
      &&
      (match jsonGet fs "videoId" with
       | some Json.null => false
       | some _ => true
       | none => false)
  | _ => false

/-- item.get("videoId") of a matched result (line 238); Json.null
stands for an absent key's None default. -/
def videoIdOf : Json → Json
  | Json.obj fs => (jsonGet fs "videoId").getD Json.null
  | _ => Json.null

/-- The watch URL built from a matched result (line 239). -/
def urlOf (item : Json) : String :=
  "https://music.youtube.com/watch?v=" ++ pyStr (videoIdOf item)

/-- The selection loop of find_song_on_youtube (lines 234-243) over the
list returned by ytmusic.search: the for-loop returns the URL of the
first matching item and keeps iterating past non-matching ones; falling
off the loop returns None. -/
def find_song_results : List Json → Option String
  | [] => none
  | item :: rest =>
      if resultMatches item then some (urlOf item)
      else find_song_results rest

/-- find_song_on_youtube (lines 217-243).  The external ytmusic.search
is the oracle parameter search; the query string is the f-string
of line 231. -/
def find_song_on_youtube (search : String → List Json) (artist title : String) :
    Option String :=
  find_song_results (search (artist ++ " - " ++ title))

/-- Single-character Python str.replace: substitutes every occurrence
of the character old by new. -/
def pyReplaceChar (old new : Char) (s : String) : String :=
  String.mk (s.data.map (fun c => if c = old then new else c))

/-- track.replace('/', '-').replace('\\', '-') from download_a_channel
(line 320). -/
def sanitize (track : String) : String :=
  pyReplaceChar '\\' '-' (pyReplaceChar '/' '-' track)

/-- The existence-check path of download_a_channel (line 321). -/
def checkPath (dstFolder track : String) : String :=
  dstFolder ++ "/" ++ sanitize track ++ ".mp3"

/-- First occurrence of sep inside a character list: the text before it
and after it, or none when sep does not occur. -/
def splitFirst (sep : List Char) : List Char → Option (List Char × List Char)
  | [] => none
  | c :: cs =>
      if sep = (c :: cs).take sep.length then
        some ([], (c :: cs).drop sep.length)
      else
        match splitFirst sep cs with
        | some (pre, post) => some (c :: pre, post)
        | none => none

/-- Python s.split(sep, 1) for non-empty sep: two parts around the
first occurrence of sep, or the whole string when sep is absent. -/
def pySplitOnce (sep s : String) : List String :=
  match splitFirst sep.data s.data with
  | some (pre, post) => [String.mk pre, String.mk post]
  | none => [s]

/-- The tuple payload submitted to pool.apply_async for download_worker
(line 326). -/
structure WorkItem where
  url : String
  filename : String
  quality : String
  outputFolder : String
  download : Bool
deriving DecidableEq, Repr

/-- The outtmpl destination the worker passes to the external download
tool (download_worker, line 257); the tool's mp3 postprocessor names
the final file by appending .mp3. -/
def download_worker_outtmpl (w : WorkItem) : String :=
  w.outputFolder ++ "/" ++ w.filename

/-- The per-track loop of download_a_channel (lines 318-330).  External
collaborators are oracles: resolve is find_song_on_youtube, onDisk is
os.path.exists.  Returns the submitted work items and the resolver
calls made, in order; the error is the ValueError of the two-variable
unpacking when a track does not split in two. -/
def download_loop (resolve : String → String → Option String)
    (onDisk : String → Bool) (dl : Bool) (dstFolder : String) :
    List String → Except PyErr (List WorkItem × List (String × String))
  | [] => Except.ok ([], [])
  | track :: rest =>
      if onDisk (checkPath dstFolder track) then
        download_loop resolve onDisk dl dstFolder rest
      else
        match pySplitOnce " - " track with
        | [a, t] =>
            (match resolve a t with
             | some u =>
                 (match download_loop resolve onDisk dl dstFolder rest with
                  | Except.error e => Except.error e
                  | Except.ok (ws, cs) =>
                      Except.ok (⟨u, sanitize track, "192", dstFolder, dl⟩ :: ws,
                                 (a, t) :: cs))
             | none =>
                 (match download_loop resolve onDisk dl dstFolder rest with
                  | Except.error e => Except.error e
                  | Except.ok (ws, cs) => Except.ok (ws, (a, t) :: cs)))
        | _ => Except.error PyErr.valueError

/-- The on-disk store of JSON cache files: path, contents pairs. -/
def ChannelFs := List (String × String)

/-- os.path.exists on the cache store. -/
def fsExists (fs : ChannelFs) (p : String) : Bool :=
  (fs : List (String × String)).any (fun e => e.1 == p)

/-- Writing a cache file. -/
def fsWrite (fs : ChannelFs) (p c : String) : ChannelFs :=
  ((p, c) :: fs : List (String × String))

/-- The cache path json/{channel}.json of getChannelJson (line 286). -/
def chPath (channel : String) : String := "json/" ++ channel ++ ".json"

/-- getChannelJson (lines 276-309).  fetch is the HTTP oracle: some
body is a 2xx response whose JSON body (re-serialised by json.dump) is
body; none is a requests.RequestException (non-2xx via
raise_for_status, or a network error), which is caught, logged and
turned into a None return with nothing written.  The result is the
returned path (None on failure), the updated file store, and the
number of fetches performed. -/
def getChannelJson (fetch : Option String) (fs : ChannelFs) (channel : String) :
    Option String × ChannelFs × Nat :=
  if fsExists fs (chPath channel) then (some (chPath channel), fs, 0)
  else
    match fetch with
    | some body => (some (chPath channel), fsWrite fs (chPath channel) body, 1)
    | none => (none, fs, 1)

/-- download_a_channel (lines 311-334): fetch-or-reuse the channel
JSON, normalise it from the file, run the dispatch loop over the
records with destination folder sirius-{channel}. -/
def download_a_channel (fetch : Option String) (fs : ChannelFs)
    (readFile : String → Option (Option Json))
    (resolve : String → String → Option String) (onDisk : String → Bool)
    (dl : Bool) (channel : String) :
    Except PyErr (List WorkItem × List (String × String)) :=
  match process_track_records_from_file readFile (getChannelJson fetch fs channel).1 with
  | Except.error e => Except.error e
  | Except.ok trackList =>
      download_loop resolve onDisk dl ("sirius-" ++ channel) trackList

/-- The logger.critical message of main's per-channel handler
(line 353), embedding the freshly computed get_sorted_channels
listing. -/
def chanFailMsg (channel listing : String) : String :=
  "Check your channel name: " ++ channel ++ "\nAvailable channels:\n" ++ listing

/-- Whether an Except result is a normal return. -/
def exceptIsOk : Except PyErr Unit → Bool
  | Except.ok _ => true
  | Except.error _ => false

/-- The per-channel loop of main (lines 349-354).  run is the outcome
of download_a_channel for a channel (an error is any raised Exception);
listing is the get_sorted_channels output read from the station cache.
Returns the channels actually attempted and the critical log messages
emitted, in order. -/
def processChannels (run : String → Except PyErr Unit) (listing : String) :
    List String → List String × List String
  | [] => ([], [])
  | c :: rest =>
      let (inv, logs) := processChannels run listing rest
      match run c with
      | Except.ok _ => (c :: inv, logs)
      | Except.error _ => (c :: inv, chanFailMsg c listing :: logs)

/-- main (lines 336-358): the outer try.  update is the outcome of the
setup phase before the channel loop (update_stations and logging); a
raised exception there escapes the per-channel handling, is caught at
top level and turns into exit code 1.  The per-channel loop catches
every per-channel exception itself, so a completed loop returns 0. -/
def main_exit (update : Except PyErr Unit) (run : String → Except PyErr Unit)
    (listing : String) (channels : List String) : Nat :=
  match update with
  | Except.error _ => 1
  | Except.ok _ =>
      let _ := processChannels run listing channels
      0

/-! ## Helper lemmas -/

theorem natDigits_ne_nil (n : Nat) : natDigits n ≠ [] := by
  rw [natDigits]
  split
  · simp
  · simp

theorem mk_ne_empty {l : List Char} (h : l ≠ []) : String.mk l ≠ "" := by
  intro hc
  exact h (by simpa using congrArg String.data hc)

theorem append_ne_empty_left {a : String} (b : String) (h : a ≠ "") :
    a ++ b ≠ "" := by
  intro hc
  have hd := congrArg String.data hc
  rw [String.data_append] at hd
  rcases List.append_eq_nil.1 (by simpa using hd) with ⟨h1, _⟩
  exact h (String.ext (by simpa using h1))

theorem append_ne_empty_right (a : String) {b : String} (h : b ≠ "") :
    a ++ b ≠ "" := by
  intro hc
  have hd := congrArg String.data hc
  rw [String.data_append] at hd
  rcases List.append_eq_nil.1 (by simpa using hd) with ⟨_, h2⟩
  exact h (String.ext (by simpa using h2))

/-- A truthy value never stringifies to the empty string; in particular
the title part of an emitted record is non-empty. -/
theorem pyStr_truthy_ne_empty (t : Json) (h : pyTruthy t = true) :
    pyStr t ≠ "" := by
  cases t with
  | null => simp [pyTruthy] at h
  | bool b =>
      cases b
      · simp [pyTruthy] at h
      · intro hc
        exact absurd (congrArg String.data hc) (by decide)
  | num n =>
      cases n with
      | ofNat m =>
          show intRepr (Int.ofNat m) ≠ ""
          simpa [intRepr, natRepr] using mk_ne_empty (natDigits_ne_nil m)
      | negSucc m =>
          show intRepr (Int.negSucc m) ≠ ""
          exact append_ne_empty_left _ (by decide)
  | str s => simpa [pyTruthy] using h
  | arr xs =>
      show "[" ++ pyReprList xs ++ "]" ≠ ""
      exact append_ne_empty_left _ (append_ne_empty_left _ (by decide))
  | obj fs =>
      show "\x7b" ++ pyReprFields fs ++ "\x7d" ≠ ""
      exact append_ne_empty_left _ (append_ne_empty_left _ (by decide))

/-- The shape of every record a single track candidate can append. -/
theorem processTrack_shape (track : Json) (acc res : List String)
    (h : processTrack track acc = Except.ok res) :
    res = acc ∨ ∃ a t, res = acc ++ [a ++ " - " ++ pyStr t] ∧ pyTruthy t = true := by
  cases track with
  | obj fs =>
      rcases ha : jsonGet fs "artists" with _ | va
      · simp [processTrack, ha] at h
        exact Or.inl h.symm
      · rcases ht : jsonGet fs "title" with _ | title
        · simp [processTrack, ha, ht] at h
          exact Or.inl h.symm
        · cases va with
          | arr artists =>
              cases hemp : (artists.filterMap extractArtistName).isEmpty with
              | true =>
                  simp [processTrack, ha, ht, hemp] at h
                  exact Or.inl h.symm
              | false =>
                  cases hj : pyJoin ", " (artists.filterMap extractArtistName) with
                  | error e =>
                      simp [processTrack, ha, ht, hemp, hj] at h
                  | ok s =>
                      cases htr : pyTruthy title with
                      | true =>
                          simp [processTrack, ha, ht, hemp, hj, htr] at h
                          exact Or.inr ⟨s, title, h.symm, htr⟩
                      | false =>
                          simp [processTrack, ha, ht, hemp, hj, htr] at h
                          exact Or.inl h.symm
          | null => simp [processTrack, ha, ht] at h; exact Or.inl h.symm
          | bool b => simp [processTrack, ha, ht] at h; exact Or.inl h.symm
          | num n => simp [processTrack, ha, ht] at h; exact Or.inl h.symm
          | str s => simp [processTrack, ha, ht] at h; exact Or.inl h.symm
          | obj fs2 => simp [processTrack, ha, ht] at h; exact Or.inl h.symm
  | null => simp [processTrack] at h; exact Or.inl h.symm
  | bool b => simp [processTrack] at h; exact Or.inl h.symm
  | num n => simp [processTrack] at h; exact Or.inl h.symm
  | str s => simp [processTrack] at h; exact Or.inl h.symm
  | arr xs => simp [processTrack] at h; exact Or.inl h.symm

/-- The record-shape predicate threaded through the extraction. -/
def RecordShape (r : String) : Prop :=
  ∃ a t, r = a ++ " - " ++ pyStr t ∧ pyTruthy t = true

theorem processTracks_shape (ts : List Json) (acc res : List String)
    (h : processTracks ts acc = Except.ok res) :
    ∀ r ∈ res, r ∈ acc ∨ RecordShape r := by
  induction ts generalizing acc with
  | nil =>
      intro r hr
      simp [processTracks] at h
      exact Or.inl (h ▸ hr)
  | cons t ts ih =>
      intro r hr
      unfold processTracks at h
      cases hp : processTrack t acc with
      | error e => rw [hp] at h; exact absurd h (by simp)
      | ok acc1 =>
          rw [hp] at h
          rcases ih acc1 h r hr with hmem | hs
          · rcases processTrack_shape t acc acc1 hp with rfl | ⟨a, tt, rfl, htt⟩
            · exact Or.inl hmem
            · rcases List.mem_append.1 hmem with h1 | h2
              · exact Or.inl h1
              · exact Or.inr ⟨a, tt, (List.mem_singleton.1 h2), htt⟩
          · exact Or.inr hs

/-- Every record accumulated by extract_tracks either was already in
the accumulator or has the artist-separator-title shape. -/
theorem extract_tracks_shape :
    ∀ (data : Json) (acc : List String), ∀ res,
      extract_tracks data acc = Except.ok res →
      ∀ r ∈ res, r ∈ acc ∨ RecordShape r := by
  refine extract_tracks.induct
    (fun data acc => ∀ res, extract_tracks data acc = Except.ok res →
        ∀ r ∈ res, r ∈ acc ∨ RecordShape r)
    (fun xs acc => ∀ res, extractItems xs acc = Except.ok res →
        ∀ r ∈ res, r ∈ acc ∨ RecordShape r)
    (fun fs acc => ∀ res, extractValues fs acc = Except.ok res →
        ∀ r ∈ res, r ∈ acc ∨ RecordShape r)
    ?_ ?_ ?_ ?_ ?_ ?_ ?_ ?_ ?_ ?_
  · intro acc fs e hpt res h
    simp only [extract_tracks] at h
    rw [hpt] at h
    simp at h
  · intro acc fs acc1 hpt ih res h
    simp only [extract_tracks] at h
    rw [hpt] at h
    intro r hr
    rcases ih res h r hr with hmem | hs
    · exact processTracks_shape _ _ _ hpt r hmem
    · exact Or.inr hs
  · intro acc xs ih res h
    simp only [extract_tracks] at h
    exact ih res h
  · intro d acc hobj harr res h
    intro r hr
    cases d with
    | obj fs => exact absurd rfl (hobj fs)
    | arr xs => exact absurd rfl (harr xs)
    | null =>
        have h2 : acc = res := Except.ok.inj h
        exact Or.inl (by rw [h2]; exact hr)
    | bool b =>
        have h2 : acc = res := Except.ok.inj h
        exact Or.inl (by rw [h2]; exact hr)
    | num n =>
        have h2 : acc = res := Except.ok.inj h
        exact Or.inl (by rw [h2]; exact hr)
    | str s =>
        have h2 : acc = res := Except.ok.inj h
        exact Or.inl (by rw [h2]; exact hr)
  · intro acc res h r hr
    have h2 : acc = res := Except.ok.inj h
    exact Or.inl (by rw [h2]; exact hr)
  · intro acc x rest e hx ih res h
    simp only [extractItems] at h
    rw [hx] at h
    simp at h
  · intro acc x rest acc1 hx ih1 ih2 res h
    simp only [extractItems] at h
    rw [hx] at h
    intro r hr
    rcases ih2 res h r hr with hmem | hs
    · exact ih1 acc1 hx r hmem
    · exact Or.inr hs
  · intro acc res h r hr
    have h2 : acc = res := Except.ok.inj h
    exact Or.inl (by rw [h2]; exact hr)
  · intro acc k v rest e hv ih res h
    simp only [extractValues] at h
    rw [hv] at h
    simp at h
  · intro acc k v rest acc1 hv ih1 ih2 res h
    simp only [extractValues] at h
    rw [hv] at h
    intro r hr
    rcases ih2 res h r hr with hmem | hs
    · exact ih1 acc1 hv r hmem
    · exact Or.inr hs

/-- Reconstruction: a successful split recovers the original list. -/
theorem splitFirst_reconstruct (sep : List Char) :
    ∀ (s pre post : List Char), splitFirst sep s = some (pre, post) →
      pre ++ sep ++ post = s := by
  intro s
  induction s with
  | nil => intro pre post h; simp [splitFirst] at h
  | cons c cs ih =>
      intro pre post h
      unfold splitFirst at h
      split at h
      · rename_i hsep
        simp only [Option.some.injEq, Prod.mk.injEq] at h
        obtain ⟨h1, h2⟩ := h
        subst h1; subst h2
        simp only [List.nil_append]
        nth_rewrite 1 [hsep]
        exact List.take_append_drop _ _
      · rcases hs : splitFirst sep cs with _ | ⟨pre1, post1⟩
        · rw [hs] at h; simp at h
        · rw [hs] at h
          simp only [Option.some.injEq, Prod.mk.injEq] at h
          obtain ⟨h1, h2⟩ := h
          subst h1; subst h2
          rw [List.cons_append, List.cons_append, ih pre1 post1 hs]

/-- A list containing the separator splits successfully. -/
theorem splitFirst_append_isSome (sep : List Char) (hsep : sep ≠ []) :
    ∀ (x y : List Char), (splitFirst sep (x ++ (sep ++ y))).isSome = true := by
  intro x
  induction x with
  | nil =>
      intro y
      rcases hc : sep with _ | ⟨a, sep1⟩
      · exact absurd hc hsep
      · simp only [List.nil_append, List.cons_append]
        unfold splitFirst
        rw [if_pos]
        · simp
        · rw [← List.cons_append]
          exact (List.take_left _ _).symm
  | cons c x1 ih =>
      intro y
      simp only [List.cons_append]
      unfold splitFirst
      split
      · simp
      · have h2 := ih y
        rcases ho : splitFirst sep (x1 ++ (sep ++ y)) with _ | ⟨pre, post⟩
        · rw [ho] at h2; simp at h2
        · simp

/-- Every string of the form a ++ " - " ++ b splits (maxsplit 1) into
exactly two parts whose rejoin is the original string. -/
theorem pySplitOnce_append (a b : String) :
    ∃ pre post, pySplitOnce " - " (a ++ " - " ++ b) = [pre, post] ∧
      pre ++ " - " ++ post = a ++ " - " ++ b := by
  have hdata : (a ++ " - " ++ b).data = a.data ++ (" - ".data ++ b.data) := by
    rw [String.data_append, String.data_append, List.append_assoc]
  have hsome := splitFirst_append_isSome " - ".data (by decide) a.data b.data
  rw [← hdata] at hsome
  rcases ho : splitFirst " - ".data (a ++ " - " ++ b).data with _ | ⟨pre, post⟩
  · rw [ho] at hsome; simp at hsome
  · refine ⟨String.mk pre, String.mk post, ?_, ?_⟩
    · unfold pySplitOnce
      rw [ho]
    · have hrec := splitFirst_reconstruct " - ".data _ pre post ho
      apply String.ext
      rw [String.data_append, String.data_append]
      exact hrec

/-- pyJoin can only raise a TypeError. -/
theorem pyJoin_error (sep : String) (items : List Json) (e : PyErr)
    (h : pyJoin sep items = Except.error e) : e = PyErr.typeError := by
  unfold pyJoin at h
  split at h
  · simp at h
  · exact (Except.error.inj h).symm

/-- A wrong-typed track key together with a wrong-typed (or absent)
tracks key leaves no track candidates, as if both keys were absent. -/
theorem tracksOf_mismatch (fs : List (String × Json))
    (h1 : ∀ t, jsonGet fs "track" ≠ some (Json.obj t))
    (h2 : ∀ ts, jsonGet fs "tracks" ≠ some (Json.arr ts)) :
    tracksOf fs = [] := by
  unfold tracksOf
  split
  · rename_i t heq; exact absurd heq (h1 t)
  · split
    · rename_i ts heq; exact absurd heq (h2 ts)
    · rfl

/-- A wrong-typed artists value makes the track candidate emit
nothing. -/
theorem processTrack_artists_not_list (fs : List (String × Json))
    (acc : List String) (v : Json) (ha : jsonGet fs "artists" = some v)
    (hv : ∀ l, v ≠ Json.arr l) :
    processTrack (Json.obj fs) acc = Except.ok acc := by
  rcases ht : jsonGet fs "title" with _ | title
  · simp [processTrack, ha, ht]
  · cases v with
    | arr l => exact absurd rfl (hv l)
    | null => simp [processTrack, ha, ht]
    | bool b => simp [processTrack, ha, ht]
    | num n => simp [processTrack, ha, ht]
    | str s => simp [processTrack, ha, ht]
    | obj fs2 => simp [processTrack, ha, ht]

/-- A track candidate with no recoverable artist name emits nothing. -/
theorem processTrack_no_names (fs : List (String × Json)) (acc : List String)
    (l : List Json) (ha : jsonGet fs "artists" = some (Json.arr l))
    (hn : l.filterMap extractArtistName = []) :
    processTrack (Json.obj fs) acc = Except.ok acc := by
  rcases ht : jsonGet fs "title" with _ | title
  · simp [processTrack, ha, ht]
  · simp [processTrack, ha, ht, hn]

/-- A falsy title never emits a record (though a non-string artist name
can still abort with a TypeError before the title test). -/
theorem processTrack_falsy_title (fs : List (String × Json)) (acc : List String)
    (title : Json) (ht : jsonGet fs "title" = some title)
    (htr : pyTruthy title = false) :
    processTrack (Json.obj fs) acc = Except.ok acc ∨
      processTrack (Json.obj fs) acc = Except.error PyErr.typeError := by
  rcases ha : jsonGet fs "artists" with _ | va
  · left; simp [processTrack, ha]
  · cases va with
    | arr artists =>
        cases hemp : (artists.filterMap extractArtistName).isEmpty with
        | true => left; simp [processTrack, ha, ht, hemp]
        | false =>
            cases hj : pyJoin ", " (artists.filterMap extractArtistName) with
            | error e =>
                right
                have he := pyJoin_error _ _ _ hj
                subst he
                simp [processTrack, ha, ht, hemp, hj]
            | ok s => left; simp [processTrack, ha, ht, hemp, hj, htr]
    | null => left; simp [processTrack, ha, ht]
    | bool b => left; simp [processTrack, ha, ht]
    | num n => left; simp [processTrack, ha, ht]
    | str s => left; simp [processTrack, ha, ht]
    | obj fs2 => left; simp [processTrack, ha, ht]

/-- An artist entry with a falsy name value is skipped. -/
theorem extractArtistName_falsy (fs : List (String × Json)) (v : Json)
    (h : jsonGet fs "name" = some v) (hv : pyTruthy v = false) :
    extractArtistName (Json.obj fs) = none := by
  simp [extractArtistName, h, hv]

/-- An artist entry that is neither a string nor a dict is skipped. -/
theorem extractArtistName_scalar (j : Json)
    (h1 : ∀ s, j ≠ Json.str s) (h2 : ∀ fs, j ≠ Json.obj fs) :
    extractArtistName j = none := by
  cases j with
  | str s => exact absurd rfl (h1 s)
  | obj fs => exact absurd rfl (h2 fs)
  | null => rfl
  | bool b => rfl
  | num n => rfl
  | arr xs => rfl

/-- Element-wise agreement between a mixed artist list and its mapped
name list: the entry is the bare string itself, or a dict whose name
field is that (non-empty) string. -/
def ArtistAgrees (a : Json) (s : String) : Prop :=
  a = Json.str s ∨
    ∃ fs, a = Json.obj fs ∧ jsonGet fs "name" = some (Json.str s) ∧ s ≠ ""

/-- A mixed artist list recovers exactly the mapped names, i.e. the same
names as the equivalent all-string list. -/
theorem filterMap_of_agrees (l1 : List Json) (l2 : List String)
    (h : List.Forall₂ ArtistAgrees l1 l2) :
    l1.filterMap extractArtistName = l2.map Json.str := by
  induction h with
  | nil => rfl
  | cons hR hRs ih =>
      rcases hR with rfl | ⟨fs, rfl, hname, hs⟩
      · simp [List.filterMap_cons, extractArtistName, ih]
      · simp [List.filterMap_cons, extractArtistName, hname, pyTruthy, hs, ih]

/-- An all-string list joins without a TypeError. -/
theorem allStrs_map_str (l2 : List String) :
    allStrs (l2.map Json.str) = some l2 := by
  induction l2 with
  | nil => rfl
  | cons s rest ih => simp [allStrs, ih]

/-- The artist filter keeps every entry of an all-string list. -/
theorem filterMap_map_str (l2 : List String) :
    (l2.map Json.str).filterMap extractArtistName = l2.map Json.str := by
  induction l2 with
  | nil => rfl
  | cons s rest ih => simp [List.filterMap_cons, extractArtistName, ih]

/-- When every track splits in two, the dispatch loop completes without
an unpacking ValueError. -/
theorem download_loop_total (resolve : String → String → Option String)
    (onDisk : String → Bool) (dl : Bool) (dst : String) :
    ∀ tracks : List String,
      (∀ tr ∈ tracks, ∃ x y, pySplitOnce " - " tr = [x, y]) →
      ∃ out, download_loop resolve onDisk dl dst tracks = Except.ok out := by
  intro tracks
  induction tracks with
  | nil => exact fun _ => ⟨([], []), rfl⟩
  | cons track rest ih =>
      intro h
      obtain ⟨out1, hout1⟩ := ih (fun tr htr => h tr (List.mem_cons_of_mem _ htr))
      obtain ⟨x, y, hxy⟩ := h track (List.mem_cons_self _ _)
      rcases out1 with ⟨ws1, cs1⟩
      unfold download_loop
      cases hd : onDisk (checkPath dst track) with
      | true =>
          simp only [if_pos]
          exact ⟨(ws1, cs1), hout1⟩
      | false =>
          simp only [Bool.false_eq_true, if_false]
          rw [hxy]
          cases hr : resolve x y with
          | some u =>
              refine ⟨(⟨u, sanitize track, "192", dst, dl⟩ :: ws1, (x, y) :: cs1), ?_⟩
              simp [hout1, hr]
          | none =>
              refine ⟨(ws1, (x, y) :: cs1), ?_⟩
              simp [hout1, hr]

/-- The selection loop returns the URL of the first matching search
result, in List.find? terms. -/
theorem find_song_results_eq (results : List Json) :
    find_song_results results = (results.find? resultMatches).map urlOf := by
  induction results with
  | nil => rfl
  | cons item rest ih =>
      cases hm : resultMatches item <;>
        simp [find_song_results, List.find?_cons, hm, ih]

/-- Sanitization as one character map. -/
theorem sanitize_eq_map (t : String) :
    sanitize t = String.mk (t.data.map
      (fun c => if c = '/' ∨ c = '\\' then '-' else c)) := by
  unfold sanitize pyReplaceChar
  apply String.ext
  simp only [List.map_map]
  congr 1
  funext c
  by_cases h1 : c = '/'
  · subst h1; simp
  · by_cases h2 : c = '\\'
    · subst h2; simp
    · simp [Function.comp, h1, h2]

/-- Every submitted work item comes from a non-on-disk track of the
input list, carries its sanitized name and the channel folder, and its
worker destination plus the .mp3 extension is exactly the checked
path. -/
theorem download_loop_items (resolve : String → String → Option String)
    (onDisk : String → Bool) (dl : Bool) (dst : String) :
    ∀ (tracks : List String) (ws : List WorkItem) (cs : List (String × String)),
      download_loop resolve onDisk dl dst tracks = Except.ok (ws, cs) →
      ∀ w ∈ ws, ∃ track ∈ tracks, w.filename = sanitize track ∧
        w.outputFolder = dst ∧ onDisk (checkPath dst track) = false ∧
        download_worker_outtmpl w ++ ".mp3" = checkPath dst track := by
  intro tracks
  induction tracks with
  | nil =>
      intro ws cs h w hw
      simp [download_loop] at h
      obtain ⟨rfl, rfl⟩ := h
      simp at hw
  | cons track rest ih =>
      intro ws cs h w hw
      unfold download_loop at h
      cases hd : onDisk (checkPath dst track) with
      | true =>
          rw [hd] at h
          simp only [if_pos] at h
          rcases ih ws cs h w hw with ⟨tr, htr, hrest⟩
          exact ⟨tr, List.mem_cons_of_mem _ htr, hrest⟩
      | false =>
          rw [hd] at h
          simp only [Bool.false_eq_true, if_false] at h
          split at h
          · -- the [a, t] arm of the split match
            split at h
            · -- resolve succeeded
              split at h
              · simp at h
              · rename_i ws1 cs1 hrec
                simp only [Except.ok.injEq, Prod.mk.injEq] at h
                obtain ⟨h1, h2⟩ := h
                subst h1
                rcases List.mem_cons.1 hw with rfl | hw1
                · exact ⟨track, List.mem_cons_self _ _, rfl, rfl, hd, rfl⟩
                · rcases ih ws1 cs1 hrec w hw1 with ⟨tr, htr, hrest⟩
                  exact ⟨tr, List.mem_cons_of_mem _ htr, hrest⟩
            · -- resolve failed
              split at h
              · simp at h
              · rename_i ws1 cs1 hrec
                simp only [Except.ok.injEq, Prod.mk.injEq] at h
                obtain ⟨h1, h2⟩ := h
                subst h1
                rcases ih ws1 cs1 hrec w hw with ⟨tr, htr, hrest⟩
                exact ⟨tr, List.mem_cons_of_mem _ htr, hrest⟩
          · simp at h

/-- Every record returned by runExtract has the record shape. -/
theorem runExtract_shape (j : Json) (r : String) (hr : r ∈ runExtract j) :
    RecordShape r := by
  unfold runExtract at hr
  cases he : extract_tracks j [] with
  | error e => rw [he] at hr; simp at hr
  | ok recs =>
      rw [he] at hr
      rcases extract_tracks_shape j [] recs he r hr with hmem | hs
      · simp at hmem
      · exact hs

/-! ## Claim theorems -/

/-- C1 counterexample.  The claim says a wrong-typed value at the name
key is treated as if the key were absent.  On the document whose second
track has the artist entry with name 5, treating the mismatch as absent
would keep the first track's record "A - T1" (second document); the
code instead hits a TypeError inside ", ".join that the outer handler
turns into an empty result, discarding the already-extracted record, so
the two results differ. -/
theorem C1_counterexample :
    runExtract (Json.obj [("tracks", Json.arr
      [Json.obj [("artists", Json.arr [Json.str "A"]), ("title", Json.str "T1")],
       Json.obj [("artists", Json.arr [Json.obj [("name", Json.num 5)]]),
                 ("title", Json.str "T2")]])]) = [] ∧
    runExtract (Json.obj [("tracks", Json.arr
      [Json.obj [("artists", Json.arr [Json.str "A"]), ("title", Json.str "T1")],
       Json.obj [("artists", Json.arr [Json.obj []]),
                 ("title", Json.str "T2")]])]) = ["A - T1"] :=
  ⟨rfl, rfl⟩

/-- C1 (amended).  process_track_records always returns a plain list
and never raises: malformed JSON text yields []; a wrong-typed track or
tracks value leaves no track candidates; a wrong-typed artists value,
an artist entry that is neither string nor object, and a falsy name are
treated as absent; a falsy title emits no record (though a truthy
non-string artist name aborts extraction with a caught TypeError, and a
truthy non-string title is stringified rather than dropped). -/
theorem C1_amended :
    (∀ (loads : String → Option Json) (s : String), loads s = none →
        process_track_records loads (PyInput.text s) = []) ∧
    (∀ fs, (∀ t, jsonGet fs "track" ≠ some (Json.obj t)) →
        (∀ ts, jsonGet fs "tracks" ≠ some (Json.arr ts)) → tracksOf fs = []) ∧
    (∀ fs acc v, jsonGet fs "artists" = some v → (∀ l, v ≠ Json.arr l) →
        processTrack (Json.obj fs) acc = Except.ok acc) ∧
    (∀ fs v, jsonGet fs "name" = some v → pyTruthy v = false →
        extractArtistName (Json.obj fs) = none) ∧
    (∀ j, (∀ s, j ≠ Json.str s) → (∀ fs, j ≠ Json.obj fs) →
        extractArtistName j = none) ∧
    (∀ fs acc title, jsonGet fs "title" = some title → pyTruthy title = false →
        processTrack (Json.obj fs) acc = Except.ok acc ∨
        processTrack (Json.obj fs) acc = Except.error PyErr.typeError) := by
  refine ⟨?_, tracksOf_mismatch, ?_, ?_, extractArtistName_scalar, ?_⟩
  · intro loads s h
    simp [process_track_records, h]
  · intro fs acc v ha hv
    exact processTrack_artists_not_list fs acc v ha hv
  · intro fs v h hv
    exact extractArtistName_falsy fs v h hv
  · intro fs acc title ht htr
    exact processTrack_falsy_title fs acc title ht htr

/-- C1 witness: the amended statement at concrete inputs. -/
theorem C1_amended_witness :
    process_track_records (fun _ => none) (PyInput.text "not json") = [] ∧
    tracksOf [("track", Json.num 1), ("tracks", Json.str "x")] = [] ∧
    processTrack (Json.obj [("artists", Json.str "solo"), ("title", Json.str "T")])
      [] = Except.ok [] ∧
    extractArtistName (Json.obj [("name", Json.str "")]) = none ∧
    extractArtistName (Json.num 3) = none ∧
    (processTrack (Json.obj [("artists", Json.arr [Json.str "A"]),
        ("title", Json.bool false)]) [] = Except.ok [] ∨
     processTrack (Json.obj [("artists", Json.arr [Json.str "A"]),
        ("title", Json.bool false)]) [] = Except.error PyErr.typeError) := by
  refine ⟨C1_amended.1 (fun _ => none) "not json" rfl,
          C1_amended.2.1 _ ?_ ?_,
          C1_amended.2.2.1 _ [] (Json.str "solo") rfl ?_,
          C1_amended.2.2.2.1 _ (Json.str "") rfl rfl,
          C1_amended.2.2.2.2.1 (Json.num 3) ?_ ?_,
          C1_amended.2.2.2.2.2 _ [] (Json.bool false) rfl rfl⟩
  · intro t h; simp [jsonGet] at h
  · intro ts h; simp [jsonGet] at h
  · intro l h; simp at h
  · intro s h; simp at h
  · intro fs h; simp at h

/-- C2 counterexample.  The claim says an artists list containing only
empty strings yields no record; on this document the code keeps the
bare empty-string artist (the emptiness test only applies to dict
entries) and emits a record whose artist part is empty. -/
theorem C2_counterexample :
    runExtract (Json.obj [("tracks", Json.arr
      [Json.obj [("artists", Json.arr [Json.str ""]), ("title", Json.str "T")]])])
      = [" - T"] := rfl

/-- C2 (amended).  A track whose recovered artist-name list is empty
emits no record; a falsy (e.g. empty) title emits no record; and every
emitted record has a non-empty title part.  The artist part, however,
can be empty, because bare empty-string artist entries are kept. -/
theorem C2_amended :
    (∀ fs acc l, jsonGet fs "artists" = some (Json.arr l) →
        l.filterMap extractArtistName = [] →
        processTrack (Json.obj fs) acc = Except.ok acc) ∧
    (∀ fs acc title, jsonGet fs "title" = some title → pyTruthy title = false →
        processTrack (Json.obj fs) acc = Except.ok acc ∨
        processTrack (Json.obj fs) acc = Except.error PyErr.typeError) ∧
    (∀ j r, r ∈ runExtract j → ∃ a t, r = a ++ " - " ++ pyStr t ∧
        pyTruthy t = true ∧ pyStr t ≠ "") := by
  refine ⟨processTrack_no_names, ?_, ?_⟩
  · intro fs acc title ht htr
    exact processTrack_falsy_title fs acc title ht htr
  · intro j r hr
    obtain ⟨a, t, hshape, htr⟩ := runExtract_shape j r hr
    exact ⟨a, t, hshape, htr, pyStr_truthy_ne_empty t htr⟩

/-- C2 witness: the amended statement at concrete inputs. -/
theorem C2_amended_witness :
    processTrack (Json.obj [("artists", Json.arr [Json.num 3]),
      ("title", Json.str "T")]) [] = Except.ok [] ∧
    processTrack (Json.obj [("artists", Json.arr [Json.str "A"]),
      ("title", Json.str "")]) [] = Except.ok [] ∧
    (" - T" : String) ≠ "" := by
  refine ⟨C2_amended.1 _ [] [Json.num 3] rfl rfl, ?_, ?_⟩
  · rcases C2_amended.2.1 [("artists", Json.arr [Json.str "A"]),
        ("title", Json.str "")] [] (Json.str "") rfl rfl with h | h
    · exact h
    · have hc : processTrack (Json.obj [("artists", Json.arr [Json.str "A"]),
          ("title", Json.str "")]) [] = Except.ok [] := rfl
      rw [hc] at h
      exact Except.noConfusion h
  · obtain ⟨a, t, hshape, htr, hne⟩ := C2_amended.2.2
        (Json.obj [("tracks", Json.arr [Json.obj
          [("artists", Json.arr [Json.str ""]), ("title", Json.str "T")]])])
        " - T" (by decide)
    rw [hshape]
    exact append_ne_empty_right _ hne

/-- C3 counterexample.  The artist lists of the two documents agree
element-wise after mapping the object entry to its name field (both map
to the single name ""), yet the normalizer emits nothing for the object
form (the dict entry's falsy name is skipped, leaving no artists) and a
record with empty artist string for the bare-string form. -/
theorem C3_counterexample :
    runExtract (Json.obj [("tracks", Json.arr
      [Json.obj [("artists", Json.arr [Json.obj [("name", Json.str "")]]),
                 ("title", Json.str "T")]])]) = [] ∧
    runExtract (Json.obj [("tracks", Json.arr
      [Json.obj [("artists", Json.arr [Json.str ""]), ("title", Json.str "T")]])])
      = [" - T"] :=
  ⟨rfl, rfl⟩

/-- C3 (amended).  For artist lists that agree element-wise after
mapping each object entry to its name field, where every object entry's
name is a non-empty string, the recovered names equal those of the
equivalent all-string list and the ", "-joined artist string is the
same. -/
theorem C3_amended (l1 : List Json) (l2 : List String)
    (h : List.Forall₂ ArtistAgrees l1 l2) :
    l1.filterMap extractArtistName = (l2.map Json.str).filterMap extractArtistName ∧
    pyJoin ", " (l1.filterMap extractArtistName) =
      Except.ok (joinSep ", " l2) := by
  have h1 := filterMap_of_agrees l1 l2 h
  constructor
  · rw [h1, filterMap_map_str]
  · rw [h1]
    unfold pyJoin
    rw [allStrs_map_str]

/-- C3 witness: the spec's own example, mixing a bare string with a
name object. -/
theorem C3_amended_witness :
    [Json.str "A", Json.obj [("name", Json.str "B")]].filterMap extractArtistName
      = (["A", "B"].map Json.str).filterMap extractArtistName ∧
    pyJoin ", " ([Json.str "A",
        Json.obj [("name", Json.str "B")]].filterMap extractArtistName)
      = Except.ok (joinSep ", " ["A", "B"]) :=
  C3_amended _ _ (by
    refine List.Forall₂.cons (Or.inl rfl)
      (List.Forall₂.cons (Or.inr ⟨_, rfl, rfl, ?_⟩) List.Forall₂.nil)
    decide)

/-- C4 counterexample.  The claim says that when the top search result
fails the category test the resolver returns none and never considers a
later result; the code's for-loop continues past the first result and
returns the URL of the second. -/
theorem C4_counterexample :
    find_song_results
      [Json.obj [("category", Json.str "Videos")],
       Json.obj [("category", Json.str "Songs"), ("videoId", Json.str "abc")]]
      = some "https://music.youtube.com/watch?v=abc" := rfl

/-- C4 (amended).  The resolver returns the URL of the first result in
the list that is a dict with category "Songs" and a non-null videoId,
none when no result matches; on a single-result list (the limit that is
actually requested) this is exactly the claimed top-result policy. -/
theorem C4_amended (results : List Json) :
    find_song_results results = (results.find? resultMatches).map urlOf ∧
    (find_song_results results = none ↔
      ∀ x ∈ results, resultMatches x = false) ∧
    (∀ item, find_song_results [item] =
        if resultMatches item then some (urlOf item) else none) := by
  refine ⟨find_song_results_eq results, ?_, ?_⟩
  · rw [find_song_results_eq results]
    simp [List.find?_eq_none]
  · intro item
    cases hm : resultMatches item <;> simp [find_song_results, hm]

/-- C5.  A record whose sanitized file already exists is skipped
entirely: processing the remaining records is unchanged (no resolver
call, no work item for it); in particular a list of only already-present
records submits nothing and resolves nothing. -/
theorem C5_skip_existing :
    (∀ (resolve : String → String → Option String) (onDisk : String → Bool)
        (dl : Bool) (dst track : String) (rest : List String),
        onDisk (checkPath dst track) = true →
        download_loop resolve onDisk dl dst (track :: rest) =
          download_loop resolve onDisk dl dst rest) ∧
    (∀ (resolve : String → String → Option String) (onDisk : String → Bool)
        (dl : Bool) (dst : String) (tracks : List String),
        (∀ track ∈ tracks, onDisk (checkPath dst track) = true) →
        download_loop resolve onDisk dl dst tracks = Except.ok ([], [])) := by
  constructor
  · intro resolve onDisk dl dst track rest h
    conv_lhs => unfold download_loop
    simp [h]
  · intro resolve onDisk dl dst tracks h
    induction tracks with
    | nil => rfl
    | cons track rest ih =>
        have h1 := h track (List.mem_cons_self _ _)
        unfold download_loop
        simp only [h1, if_pos]
        exact ih (fun tr htr => h tr (List.mem_cons_of_mem _ htr))

/-- C5 witness: with the file reported present, the head record changes
nothing and an all-present list yields no submissions. -/
theorem C5_skip_existing_witness :
    download_loop (fun _ _ => none) (fun _ => true) false "sirius-x" ["A - T"]
      = download_loop (fun _ _ => none) (fun _ => true) false "sirius-x" [] ∧
    download_loop (fun _ _ => none) (fun _ => true) false "sirius-x" ["A - T"]
      = Except.ok ([], []) :=
  ⟨C5_skip_existing.1 (fun _ _ => none) (fun _ => true) false "sirius-x"
      "A - T" [] rfl,
   C5_skip_existing.2 (fun _ _ => none) (fun _ => true) false "sirius-x"
      ["A - T"] (fun _ _ => rfl)⟩

/-- C6.  Sanitization maps every '/' and every '\' to '-' (and nothing
else); every submitted work item carries the sanitized name of some
input record and the channel folder, the file was checked absent under
exactly that name, and the worker's outtmpl destination plus the .mp3
extension equals the checked path. -/
theorem C6_sanitize_agreement :
    (∀ t, sanitize t = String.mk (t.data.map
        (fun c => if c = '/' ∨ c = '\\' then '-' else c))) ∧
    (∀ (resolve : String → String → Option String) (onDisk : String → Bool)
        (dl : Bool) (dst : String) (tracks : List String)
        (ws : List WorkItem) (cs : List (String × String)),
        download_loop resolve onDisk dl dst tracks = Except.ok (ws, cs) →
        ∀ w ∈ ws, ∃ track ∈ tracks, w.filename = sanitize track ∧
          w.outputFolder = dst ∧ onDisk (checkPath dst track) = false ∧
          download_worker_outtmpl w ++ ".mp3" = checkPath dst track) :=
  ⟨sanitize_eq_map, fun resolve onDisk dl dst =>
    download_loop_items resolve onDisk dl dst⟩

/-- C6 witness: a concrete run submitting one record, whose work item
writes exactly the checked path. -/
theorem C6_sanitize_agreement_witness :
    download_worker_outtmpl
        (⟨"u", sanitize "A - T", "192", "sirius-x", false⟩ : WorkItem)
      ++ ".mp3" = checkPath "sirius-x" "A - T" := by
  have h := C6_sanitize_agreement.2 (fun _ _ => some "u") (fun _ => false) false
      "sirius-x" ["A - T"]
      [⟨"u", sanitize "A - T", "192", "sirius-x", false⟩] [("A", "T")] rfl
      ⟨"u", sanitize "A - T", "192", "sirius-x", false⟩ (List.mem_singleton.2 rfl)
  obtain ⟨tr, htr, h1, h2, h3, h4⟩ := h
  have htr2 : tr = "A - T" := List.mem_singleton.1 htr
  rw [htr2] at h4
  exact h4

/-- C7.  The per-channel cache file is write-once: when present the
path is returned with no fetch and no write; when absent exactly one
fetch happens, a successful body is written and the path returned, and
a subsequent call for the channel fetches nothing; a failed fetch
writes nothing and returns a null path. -/
theorem C7_cache_write_once :
    (∀ (fetch : Option String) (fs : ChannelFs) (channel : String),
        fsExists fs (chPath channel) = true →
        getChannelJson fetch fs channel = (some (chPath channel), fs, 0)) ∧
    (∀ (body : String) (fs : ChannelFs) (channel : String),
        fsExists fs (chPath channel) = false →
        getChannelJson (some body) fs channel =
          (some (chPath channel), fsWrite fs (chPath channel) body, 1) ∧
        ∀ fetch2, getChannelJson fetch2 (fsWrite fs (chPath channel) body) channel
          = (some (chPath channel), fsWrite fs (chPath channel) body, 0)) ∧
    (∀ (fs : ChannelFs) (channel : String),
        fsExists fs (chPath channel) = false →
        getChannelJson none fs channel = (none, fs, 1)) := by
  refine ⟨?_, ?_, ?_⟩
  · intro fetch fs channel h
    simp [getChannelJson, h]
  · intro body fs channel h
    constructor
    · simp [getChannelJson, h]
    · intro fetch2
      have hw : fsExists (fsWrite fs (chPath channel) body) (chPath channel)
          = true := by simp [fsExists, fsWrite]
      simp [getChannelJson, hw]
  · intro fs channel h
    simp [getChannelJson, h]

/-- C7 witness: an empty store fetches once and writes; the written
store is then reused with no fetch; a failed fetch writes nothing. -/
theorem C7_cache_write_once_witness :
    getChannelJson none [("json/hits1.json", "X")] "hits1"
      = (some (chPath "hits1"), [("json/hits1.json", "X")], 0) ∧
    getChannelJson (some "BODY") [] "hits1"
      = (some (chPath "hits1"), fsWrite [] (chPath "hits1") "BODY", 1) ∧
    getChannelJson none (fsWrite [] (chPath "hits1") "BODY") "hits1"
      = (some (chPath "hits1"), fsWrite [] (chPath "hits1") "BODY", 0) ∧
    getChannelJson none [] "hits1" = (none, [], 1) :=
  ⟨C7_cache_write_once.1 none [("json/hits1.json", "X")] "hits1" rfl,
   (C7_cache_write_once.2.1 "BODY" [] "hits1" rfl).1,
   (C7_cache_write_once.2.1 "BODY" [] "hits1" rfl).2 none,
   C7_cache_write_once.2.2 [] "hits1" rfl⟩

/-- C8.  Every requested channel is attempted regardless of earlier
per-channel failures; each failure logs the channel name together with
the valid-channel listing; a completed run exits 0 whatever the
per-channel outcomes, and only an exception escaping to the top level
(before or outside the per-channel handler) exits 1. -/
theorem C8_channel_isolation :
    (∀ (run : String → Except PyErr Unit) (listing : String)
        (channels : List String),
        (processChannels run listing channels).1 = channels ∧
        (processChannels run listing channels).2 =
          (channels.filter (fun c => !exceptIsOk (run c))).map
            (fun c => chanFailMsg c listing)) ∧
    (∀ (run : String → Except PyErr Unit) (listing : String)
        (channels : List String),
        main_exit (Except.ok ()) run listing channels = 0) ∧
    (∀ (e : PyErr) (run : String → Except PyErr Unit) (listing : String)
        (channels : List String),
        main_exit (Except.error e) run listing channels = 1) := by
  refine ⟨?_, fun _ _ _ => rfl, fun _ _ _ _ => rfl⟩
  intro run listing channels
  induction channels with
  | nil => exact ⟨rfl, rfl⟩
  | cons c rest ih =>
      obtain ⟨ih1, ih2⟩ := ih
      cases hr : run c with
      | ok u =>
          cases u
          constructor <;>
            simp [processChannels, hr, exceptIsOk, List.filter_cons, ih1, ih2]
      | error e =>
          constructor <;>
            simp [processChannels, hr, exceptIsOk, List.filter_cons, ih1, ih2]

/-- C9.  When the metadata fetch fails with no cache file present,
getChannelJson returns a null path; the caller then passes None to
open, which raises a TypeError that is not in the caught exception
tuple of process_track_records_from_file, so the channel run aborts
with the TypeError instead of continuing with an empty record list —
the code contradicts the function's own docstring ("Returns an empty
list if the file cannot be opened"). -/
theorem C9_fetch_none_raises :
    (getChannelJson none [] "siriusxmhits1").1 = none ∧
    process_track_records_from_file (fun _ => none) none
      = Except.error PyErr.typeError ∧
    download_a_channel none [] (fun _ => none) (fun _ _ => none)
      (fun _ => false) false "siriusxmhits1" = Except.error PyErr.typeError :=
  ⟨rfl, rfl, rfl⟩

/-- C10.  Every record emitted by the normalizer contains the " - "
separator: splitting it on " - " with maxsplit 1 gives exactly two
parts whose rejoin with " - " is the original record (so the resolver
queries exactly the record string), and consequently the dispatcher's
two-variable unpacking never raises on normalizer output. -/
theorem C10_records_split :
    (∀ (j : Json) (r : String), r ∈ runExtract j → ∃ pre post,
        pySplitOnce " - " r = [pre, post] ∧ pre ++ " - " ++ post = r ∧
        ∀ search : String → List Json,
          find_song_on_youtube search pre post = find_song_results (search r)) ∧
    (∀ (resolve : String → String → Option String) (onDisk : String → Bool)
        (dl : Bool) (dst : String) (j : Json),
        ∃ out, download_loop resolve onDisk dl dst (runExtract j)
          = Except.ok out) := by
  constructor
  · intro j r hr
    obtain ⟨a, t, hshape, _⟩ := runExtract_shape j r hr
    obtain ⟨pre, post, hsp, hjoin⟩ := pySplitOnce_append a (pyStr t)
    rw [← hshape] at hsp hjoin
    refine ⟨pre, post, hsp, hjoin, ?_⟩
    intro search
    unfold find_song_on_youtube
    rw [hjoin]
  · intro resolve onDisk dl dst j
    refine download_loop_total resolve onDisk dl dst (runExtract j) ?_
    intro tr htr
    obtain ⟨a, t, hshape, _⟩ := runExtract_shape j tr htr
    obtain ⟨pre, post, hsp, _⟩ := pySplitOnce_append a (pyStr t)
    rw [← hshape] at hsp
    exact ⟨pre, post, hsp⟩

/-- C10 witness: the record of a flat document splits back into its
artist and title. -/
theorem C10_records_split_witness :
    ("A" : String) ++ " - " ++ "T" = "A - T" := by
  obtain ⟨pre, post, h1, h2, h3⟩ := C10_records_split.1
      (Json.obj [("tracks", Json.arr [Json.obj
        [("artists", Json.arr [Json.str "A"]), ("title", Json.str "T")]])])
      "A - T" (by decide)
  have hc : pySplitOnce " - " "A - T" = ["A", "T"] := rfl
  rw [hc] at h1
  injection h1 with ha hrest
  injection hrest with hb _
  rw [ha, hb]
  exact h2
